import Mathlib

/-!
Shallow embedding of the journal application's persistence and stats layer
(source: `src/app/page.tsx`).  The store is the React state `savedEntries`,
a list of `JournalEntry` mirrored to local storage.  Pure logic (upsert,
import-merge, export, task stats, rating averages, insights) is translated
into executable Lean definitions; theorems below settle the frozen claims.
-/

namespace Journal

/-- Todo priority enum, from the `priority: "high" | "medium" | "low"` union. -/
inductive Priority where
  | high
  | medium
  | low
deriving DecidableEq, Repr

/-- A todo item, from `interface Todo`. -/
structure Todo where
  text : String
  completed : Bool
  priority : Priority
deriving DecidableEq, Repr

/-- The four integer rating dimensions, from `JournalEntry.ratings`. -/
structure Ratings where
  overall : Nat
  energy : Nat
  productivity : Nat
  mood : Nat
deriving DecidableEq, Repr

/-- A journal entry, from `interface JournalEntry`.  `date` is the store key
(ISO `YYYY-MM-DD`); `timestamp` is the display-only last-saved time. -/
structure JournalEntry where
  date : String
  timestamp : String
  todos : List Todo
  mainGoal : String
  accomplishments : String
  goodThings : String
  grateful : String
  kindness : String
  ratings : Ratings
  lessons : String
  improvements : String
  challenges : String
  emotions : String
  futureImprovements : String
  tomorrowGoals : String
  affirmation : String
deriving DecidableEq, Repr

/-- `saveEntry` (page.tsx lines 160-183): upsert by `date`.  The candidate
entry's timestamp is refreshed to `now`; if an entry with the same date
already exists the user is asked to confirm (`confirm`), and on decline the
store is returned unchanged; on confirm the existing entry is replaced in
place; otherwise the refreshed entry is appended at the end. -/
def saveEntry (saved : List JournalEntry) (entry : JournalEntry) (now : String)
    (confirm : Bool) : List JournalEntry :=
  let updatedEntry := { entry with timestamp := now }
  match saved.findIdx? (fun e => e.date == entry.date) with
  | some i => if confirm then saved.set i updatedEntry else saved
  | none => saved ++ [updatedEntry]

/-- Leap-year test of the Gregorian calendar, as used by the JS `Date`
engine when interpreting an ISO `YYYY-MM-DD` string. -/
def isLeap (y : Nat) : Bool :=
  (y % 4 == 0 && y % 100 != 0) || y % 400 == 0

/-- Days in month `m` (1-12) of year `y`. -/
def daysInMonth (y : Nat) (m : Nat) : Nat :=
  if m == 2 then (if isLeap y then 29 else 28)
  else if m == 4 || m == 6 || m == 9 || m == 11 then 30
  else 31

/-- Days since the Unix epoch of the civil date `y-m-d` (valid Gregorian
date, year ≥ 1), the quantity behind `new Date("YYYY-MM-DD").getTime()`. -/
def daysFromCivil (y m d : Nat) : Int :=
  let y' : Nat := if m ≤ 2 then y - 1 else y
  let era : Nat := y' / 400
  let yoe : Nat := y' % 400
  let mp : Nat := if m > 2 then m - 3 else m + 9
  let doy : Nat := (153 * mp + 2) / 5 + d - 1
  let doe : Nat := yoe * 365 + yoe / 4 - yoe / 100 + doy
  (era * 146097 + doe : Int) - 719468

/-- Numeric value of a list of decimal digit characters. -/
def digitsToNat (cs : List Char) : Nat :=
  cs.foldl (fun acc c => acc * 10 + (c.toNat - 48)) 0

/-- `new Date(s).getTime()` for an ISO `YYYY-MM-DD` string, in milliseconds
since the epoch; `none` models the `NaN` of an invalid date (the sort
comparator in `importData` line 222 feeds on this value).  Only the ISO
calendar-date form is modelled, the format the store's `date` field uses. -/
def dateVal (s : String) : Option Int :=
  match s.toList with
  | [y1, y2, y3, y4, s1, m1, m2, s2, d1, d2] =>
    if ([y1, y2, y3, y4, m1, m2, d1, d2].all Char.isDigit) ∧ s1 = '-' ∧ s2 = '-' then
      let y := digitsToNat [y1, y2, y3, y4]
      let m := digitsToNat [m1, m2]
      let d := digitsToNat [d1, d2]
      if 1 ≤ y ∧ 1 ≤ m ∧ m ≤ 12 ∧ 1 ≤ d ∧ d ≤ daysInMonth y m then
        some (daysFromCivil y m d * 86400000)
      else none
    else none
  | _ => none

/-- The sort comparator of `importData` (line 222),
`(a, b) => new Date(a.date).getTime() - new Date(b.date).getTime()`, recast
as the "a may stay before b" relation of a stable merge sort: true when
a's millisecond value is ≤ b's.  When either date is invalid the JS
comparator returns `NaN`, which the sort treats as 0 (equal), so the
relation is true. -/
def entryLe (a b : JournalEntry) : Bool :=
  match dateVal a.date, dateVal b.date with
  | some x, some y => x ≤ y
  | _, _ => true

/-- Result of a successful import merge: the new store plus the imported /
skipped counts reported by the success alert (line 229). -/
structure ImportSuccess where
  store : List JournalEntry
  imported : Nat
  skipped : Nat
deriving DecidableEq, Repr

/-- The merge step of `importData` (page.tsx lines 218-226): payload entries
whose date is not already present in the store are kept, appended after the
existing entries, and the whole list is re-sorted by ascending date.
`imported` is the number of kept entries, `skipped` the payload size minus
that (the "duplicates skipped" count of line 229). -/
def importMerge (saved payload : List JournalEntry) : ImportSuccess :=
  let existingDates := saved.map (fun e => e.date)
  let newEntries := payload.filter (fun e => !(existingDates.contains e.date))
  let mergedEntries := (saved ++ newEntries).mergeSort entryLe
  { store := mergedEntries
    imported := newEntries.length
    skipped := payload.length - newEntries.length }

/-- The value space produced by `JSON.parse`: null, booleans, numbers,
strings, arrays and objects.  Objects carry their fields as an association
list; `JSON.parse` output has unique keys.  Numbers are modelled as
rationals, enough for every payload the claims touch. -/
inductive Json where
  | null
  | bool (b : Bool)
  | num (n : ℚ)
  | str (s : String)
  | arr (elems : List Json)
  | obj (fields : List (String × Json))

/-- The validation step of `importData` (lines 212-216): property access
`importedData.entries` followed by the
`!importedData.entries || !Array.isArray(importedData.entries)` guard.
Returns the elements when the top-level value is an object whose `entries`
field holds an array (an array is always truthy); every other shape — a
non-object top level, a missing `entries` field, or a non-array `entries`
value (falsy or not) — takes the `throw` / catch path. -/
def jsonEntries : Json → Option (List Json)
  | Json.obj fields =>
    match fields.lookup "entries" with
    | some (Json.arr elems) => some elems
    | _ => none
  | _ => none

/-- Full `importData` pipeline (lines 205-238) after the file has been read.
`input` is the outcome of `JSON.parse` on the file text (`none` when it
throws); `decodeEntry` is the identity-at-runtime TypeScript cast
`(entry: JournalEntry)` applied to each array element.  Returns the store
after the handler together with `some (imported, skipped)` on success and
`none` when the catch branch ran (FormatError: the store is untouched). -/
def importData (saved : List JournalEntry) (input : Option Json)
    (decodeEntry : Json → JournalEntry) :
    List JournalEntry × Option (Nat × Nat) :=
  match input with
  | none => (saved, none)
  | some j =>
    match jsonEntries j with
    | none => (saved, none)
    | some elems =>
      let r := importMerge saved (elems.map decodeEntry)
      (r.store, some (r.imported, r.skipped))

/-- The interchange document built by `exportData` (lines 185-203):
export timestamp, entry count, and the full entry collection. -/
structure ExportDoc where
  exportDate : String
  totalEntries : Nat
  entries : List JournalEntry
deriving DecidableEq, Repr

/-- `exportData` (lines 185-203): snapshots the store into the interchange
document; the store itself is not mutated. -/
def exportData (saved : List JournalEntry) (now : String) : ExportDoc :=
  { exportDate := now, totalEntries := saved.length, entries := saved }

/-- The condition of the durable read at startup, classified by what
`localStorage.getItem("journalEntries")` and `JSON.parse` do with it:
`absent` — `getItem` returned null or the empty string (falsy guard line
106); `unparseable` — the stored text makes `JSON.parse` throw; `parsed j`
— `JSON.parse` succeeds with value `j` (of any shape). -/
inductive LoadInput where
  | absent
  | unparseable
  | parsed (j : Json)

/-- Outcome of the load effect: `keepEmpty` — `setSavedEntries` is never
called, the store keeps its initial `[]`; `store j` — `setSavedEntries` is
called with the parsed value `j`, whatever its shape; `raised` — the
uncaught `JSON.parse` exception propagates out of the effect. -/
inductive LoadResult where
  | keepEmpty
  | store (j : Json)
  | raised

/-- The load effect (page.tsx lines 104-108): `getItem`, a truthiness
guard, and a bare `JSON.parse` with no try/catch and no shape check. -/
def load : LoadInput → LoadResult
  | LoadInput.absent => LoadResult.keepEmpty
  | LoadInput.unparseable => LoadResult.raised
  | LoadInput.parsed j => LoadResult.store j

/-- JS `Math.round`: round half toward positive infinity. -/
def mathRound (q : ℚ) : ℤ := ⌊q + 1 / 2⌋

/-- JS `Number(x.toFixed(1))`: round to one decimal place, ties toward the
larger value. -/
def toFixed1 (q : ℚ) : ℚ := ((⌊q * 10 + 1 / 2⌋ : ℤ) : ℚ) / 10

/-- Output record of `getProductivityStats` (lines 261-275). -/
structure ProductivityStats where
  total : Nat
  completed : Nat
  completionRate : ℤ
  highPriority : Nat
  completedHigh : Nat
  highPriorityRate : ℤ
deriving DecidableEq, Repr

/-- `getProductivityStats` (page.tsx lines 261-275): task statistics of the
current working entry.  Each rate is `Math.round((part / whole) * 100)`
guarded by `whole > 0 ? ... : 0`. -/
def getProductivityStats (entry : JournalEntry) : ProductivityStats :=
  let total := entry.todos.length
  let completed := (entry.todos.filter (fun t => t.completed)).length
  let highPriority := (entry.todos.filter (fun t => t.priority == Priority.high)).length
  let completedHigh :=
    (entry.todos.filter (fun t => t.priority == Priority.high && t.completed)).length
  { total := total
    completed := completed
    completionRate := if total > 0 then mathRound (((completed : ℚ) / total) * 100) else 0
    highPriority := highPriority
    completedHigh := completedHigh
    highPriorityRate :=
      if highPriority > 0 then mathRound (((completedHigh : ℚ) / highPriority) * 100) else 0 }

/-- The inclusion filter of the rating-averages block (lines 854-857): an
entry joins the averaging population when any one of its four ratings is
non-zero. -/
def ratingPositive (e : JournalEntry) : Bool :=
  e.ratings.overall > 0 || e.ratings.energy > 0 || e.ratings.productivity > 0 ||
    e.ratings.mood > 0

/-- The four per-dimension averages displayed by the analytics card. -/
structure RatingAvgs where
  avgOverall : ℚ
  avgEnergy : ℚ
  avgProductivity : ℚ
  avgMood : ℚ
deriving DecidableEq, Repr

/-- The rating-averages block (page.tsx lines 853-872): filter
`[...savedEntries, entry]` down to entries with at least one non-zero
rating; when none remain render nothing (`none`); otherwise each dimension
is `Number((reduce-sum / population).toFixed(1))`. -/
def ratingAverages (savedEntries : List JournalEntry) (entry : JournalEntry) :
    Option RatingAvgs :=
  let allEntries := (savedEntries ++ [entry]).filter ratingPositive
  if allEntries.length = 0 then none
  else
    let len : ℚ := allEntries.length
    some
      { avgOverall :=
          toFixed1 ((allEntries.foldl (fun sum e => sum + (e.ratings.overall : ℚ)) 0) / len)
        avgEnergy :=
          toFixed1 ((allEntries.foldl (fun sum e => sum + (e.ratings.energy : ℚ)) 0) / len)
        avgProductivity :=
          toFixed1 ((allEntries.foldl (fun sum e => sum + (e.ratings.productivity : ℚ)) 0) / len)
        avgMood :=
          toFixed1 ((allEntries.foldl (fun sum e => sum + (e.ratings.mood : ℚ)) 0) / len) }

/-- Insight message for average mood ≥ 4 (line 1042; emoji and
apostrophes of the UI strings are omitted throughout). -/
def msgMoodHigh : String :=
  "You have been in great spirits lately! Keep up the positive energy."

/-- Insight message for average mood ≤ 2 (line 1044). -/
def msgMoodLow : String :=
  "Consider focusing on self-care and activities that bring you joy."

/-- Insight message for completion rate ≥ 80 (line 1048). -/
def msgRateHigh : String :=
  "Excellent task completion rate! You are staying on top of your goals."

/-- Insight message for completion rate ≤ 50 (line 1050). -/
def msgRateLow : String :=
  "Try breaking down larger tasks into smaller, manageable steps."

/-- Insight message for average productivity ≥ 4 (line 1054). -/
def msgProductivity : String :=
  "Your productivity has been strong. Great momentum!"

/-- Streak insight for `n` total saved entries, interpolating the count
(line 1059). -/
def msgStreak (n : Nat) : String :=
  "Amazing! You have maintained a " ++ toString n ++ "-day journaling streak."

/-- Default encouragement emitted when no threshold fired (line 1065). -/
def msgDefault : String :=
  "Keep journaling to unlock personalized insights about your patterns and growth!"

/-- `savedEntries.slice(-7)` (line 1027): the trailing window of the last
at-most-7 saved entries, in stored order. -/
def recentWindow (savedEntries : List JournalEntry) : List JournalEntry :=
  savedEntries.drop (savedEntries.length - 7)

/-- Average mood over the window (lines 1030-1031); `e.ratings.mood || 0`
is the identity on these numbers. -/
def windowAvgMood (l : List JournalEntry) : ℚ :=
  (l.foldl (fun sum e => sum + (e.ratings.mood : ℚ)) 0) / l.length

/-- Average productivity over the window (lines 1032-1033); the source's
`sum + e.ratings.productivity || 0` groups as `(sum + productivity) || 0`,
again the identity on these numbers. -/
def windowAvgProductivity (l : List JournalEntry) : ℚ :=
  (l.foldl (fun sum e => sum + (e.ratings.productivity : ℚ)) 0) / l.length

/-- Aggregate completion rate over the window (lines 1034-1039):
un-rounded percentage, 0 when the window holds no tasks. -/
def windowCompletionRate (l : List JournalEntry) : ℚ :=
  let totalTasks : Nat := l.foldl (fun sum e => sum + e.todos.length) 0
  let completedTasks : Nat :=
    l.foldl (fun sum e => sum + (e.todos.filter (fun t => t.completed)).length) 0
  if totalTasks > 0 then ((completedTasks : ℚ) / totalTasks) * 100 else 0

/-- The insights block (page.tsx lines 1025-1067): over the trailing
window each threshold appends its message in source order (the mood pair
and the completion pair are if/else-if chains); the streak test reads the
FULL store length.  When nothing was appended — including when the store
is empty — the single default message is emitted. -/
def insights (savedEntries : List JournalEntry) : List String :=
  let recentEntries := recentWindow savedEntries
  let base : List String :=
    if recentEntries.length > 0 then
      (if windowAvgMood recentEntries ≥ 4 then [msgMoodHigh]
       else if windowAvgMood recentEntries ≤ 2 then [msgMoodLow] else []) ++
      (if windowCompletionRate recentEntries ≥ 80 then [msgRateHigh]
       else if windowCompletionRate recentEntries ≤ 50 then [msgRateLow] else []) ++
      (if windowAvgProductivity recentEntries ≥ 4 then [msgProductivity] else []) ++
      (if savedEntries.length ≥ 7 then [msgStreak savedEntries.length] else [])
    else []
  if base.length = 0 then [msgDefault] else base

/-- Test fixture: an entry with the given date, timestamp, goal text, todos
and ratings; the remaining free-text fields are empty, as in the source's
`initialEntry`. -/
def mkEntry (date timestamp goal : String) (todos : List Todo) (r : Ratings) :
    JournalEntry :=
  { date := date
    timestamp := timestamp
    todos := todos
    mainGoal := goal
    accomplishments := ""
    goodThings := ""
    grateful := ""
    kindness := ""
    ratings := r
    lessons := ""
    improvements := ""
    challenges := ""
    emotions := ""
    futureImprovements := ""
    tomorrowGoals := ""
    affirmation := "" }

/-! ## Shared helper lemmas -/

/-- Setting index `i` to the value already there leaves the list unchanged. -/
theorem set_self_of_getElem? {α : Type} {l : List α} {i : Nat} {a : α}
    (h : l[i]? = some a) : l.set i a = l := by
  apply List.ext_getElem?
  intro j
  by_cases hij : i = j
  · subst hij
    have hlen : i < l.length := by
      rcases List.getElem?_eq_some_iff.mp h with ⟨hlt, _⟩
      exact hlt
    rw [List.getElem?_set_self hlen, h]
  · rw [List.getElem?_set_ne hij]

/-- One `saveEntry` step preserves distinctness of the stored dates. -/
theorem saveEntry_preserves_nodup (saved : List JournalEntry) (entry : JournalEntry)
    (now : String) (confirm : Bool)
    (h : (saved.map (fun e => e.date)).Nodup) :
    ((saveEntry saved entry now confirm).map (fun e => e.date)).Nodup := by
  unfold saveEntry
  cases hf : saved.findIdx? (fun e => e.date == entry.date) with
  | none =>
    rw [List.findIdx?_eq_none_iff] at hf
    simp only [List.map_append, List.map_cons, List.map_nil]
    rw [List.nodup_append]
    refine ⟨h, List.nodup_singleton _, ?_⟩
    intro a ha hb
    simp only [List.mem_singleton] at hb
    rcases List.mem_map.mp ha with ⟨e, he, hdate⟩
    have := hf e he
    simp only [beq_eq_false_iff_ne, ne_eq] at this
    exact this (hdate.symm ▸ hb)
  | some i =>
    by_cases hc : confirm
    · simp only [hc, if_true]
      rcases List.findIdx?_eq_some_iff_getElem.mp hf with ⟨hlt, hp, _⟩
      have hdate : saved[i].date = entry.date := by
        simpa using hp
      have hmap : (saved.set i { entry with timestamp := now }).map (fun e => e.date) =
          (saved.map (fun e => e.date)).set i entry.date := by
        rw [List.map_set]
      rw [hmap, set_self_of_getElem?]
      · exact h
      · rw [List.getElem?_map, List.getElem?_eq_getElem hlt]
        simp [hdate]
    · simp only [hc, if_false]
      exact h

/-- C2: for every sequence of upsert operations (each a candidate entry, a
save time and the user's confirmation answer) applied from a store with
distinct dates, the resulting store still has distinct dates — no two
entries ever share a date.  Moreover a single upsert whose date is already
present (and confirmed) keeps the store's length, and an upsert with a
fresh date appends exactly the one refreshed entry at the end. -/
theorem saveEntry_sequence_nodup (init : List JournalEntry)
    (ops : List (JournalEntry × String × Bool))
    (h : (init.map (fun e => e.date)).Nodup) :
    (((ops.foldl (fun s op => saveEntry s op.1 op.2.1 op.2.2) init).map
        (fun e => e.date)).Nodup) ∧
    (∀ (s : List JournalEntry) (e : JournalEntry) (n : String),
      (∃ x ∈ s, x.date = e.date) → (saveEntry s e n true).length = s.length) ∧
    (∀ (s : List JournalEntry) (e : JournalEntry) (n : String) (c : Bool),
      (∀ x ∈ s, x.date ≠ e.date) →
        saveEntry s e n c = s ++ [{ e with timestamp := n }]) := by
  refine ⟨?_, ?_, ?_⟩
  · induction ops generalizing init with
    | nil => exact h
    | cons op ops ih =>
      exact ih _ (saveEntry_preserves_nodup _ _ _ _ h)
  · intro s e n hex
    unfold saveEntry
    cases hf : s.findIdx? (fun x => x.date == e.date) with
    | none =>
      rw [List.findIdx?_eq_none_iff] at hf
      rcases hex with ⟨x, hx, hdx⟩
      have := hf x hx
      simp only [beq_eq_false_iff_ne, ne_eq] at this
      exact absurd hdx this
    | some i => simp
  · intro s e n c hall
    unfold saveEntry
    cases hf : s.findIdx? (fun x => x.date == e.date) with
    | none => rfl
    | some i =>
      rcases List.findIdx?_eq_some_iff_getElem.mp hf with ⟨hlt, hp, _⟩
      have : s[i].date = e.date := by simpa using hp
      exact absurd this (hall _ (List.getElem_mem hlt))

/-- C2 witness: a concrete two-step run (insert `2024-01-01`, then a
confirmed overwrite of the same date) starting from the empty store. -/
theorem saveEntry_sequence_nodup_witness :
    (([] : List JournalEntry).map (fun e => e.date)).Nodup ∧
    ((([(mkEntry "2024-01-01" "t1" "" [] ⟨0, 0, 0, 0⟩, "t2", true),
          (mkEntry "2024-01-01" "t1" "g" [] ⟨0, 0, 0, 0⟩, "t3", true)].foldl
          (fun s op => saveEntry s op.1 op.2.1 op.2.2) []).map
        (fun e => e.date)).Nodup) :=
  ⟨List.nodup_nil, (saveEntry_sequence_nodup [] _ List.nodup_nil).1⟩

/-- Distinct mapped dates give distinct dates at distinct indices. -/
theorem dates_ne_of_nodup {saved : List JournalEntry}
    (hnd : (saved.map (fun e => e.date)).Nodup)
    {j k : Nat} (hj : j < saved.length) (hk : k < saved.length) (hjk : j < k) :
    saved[j].date ≠ saved[k].date := by
  have hp := List.pairwise_iff_getElem.mp hnd j k
    (by simpa using hj) (by simpa using hk) hjk
  simpa using hp

/-- C3: a confirmed upsert onto an occupied date `D` replaces the matching
record in place: the new store is the old one with position `i` (the first
index holding date `D`) overwritten by the candidate entry carrying the
refreshed timestamp; exactly one entry with date `D` remains, its contents
are the candidate's (timestamp refreshed), and every other position — in
particular every entry with a different date — is untouched. -/
theorem saveEntry_confirmed_overwrite (saved : List JournalEntry)
    (entry : JournalEntry) (now : String) (i : Nat)
    (hnd : (saved.map (fun e => e.date)).Nodup)
    (hfind : saved.findIdx? (fun e => e.date == entry.date) = some i) :
    saveEntry saved entry now true = saved.set i { entry with timestamp := now } ∧
    (saveEntry saved entry now true).filter (fun e => e.date == entry.date) =
      [{ entry with timestamp := now }] ∧
    (saveEntry saved entry now true).countP (fun e => e.date == entry.date) = 1 ∧
    (∀ j, j ≠ i → (saveEntry saved entry now true)[j]? = saved[j]?) := by
  rcases List.findIdx?_eq_some_iff_getElem.mp hfind with ⟨hlt, hp, hmin⟩
  have hdate : saved[i].date = entry.date := by simpa using hp
  have h1 : saveEntry saved entry now true =
      saved.set i { entry with timestamp := now } := by
    simp only [saveEntry, hfind, if_true, ite_true, if_pos trivial]
  have hset : saved.set i { entry with timestamp := now } =
      saved.take i ++ { entry with timestamp := now } :: saved.drop (i + 1) :=
    List.set_eq_take_cons_drop _ hlt
  have htake : (saved.take i).filter (fun e => e.date == entry.date) = [] := by
    rw [List.filter_eq_nil_iff]
    intro a ha
    rcases List.mem_iff_getElem.mp ha with ⟨j, hjlt, hja⟩
    have hjlt' : j < i := by
      have := hjlt
      rw [List.length_take] at this
      omega
    have hji : j < saved.length := by omega
    have := hmin j hjlt'
    have hja' : saved[j] = a := by
      rw [← hja]
      simp [List.getElem_take]
    rw [hja'] at this
    simpa using this
  have hdrop : (saved.drop (i + 1)).filter (fun e => e.date == entry.date) = [] := by
    rw [List.filter_eq_nil_iff]
    intro a ha
    rcases List.mem_iff_getElem.mp ha with ⟨j, hjlt, hja⟩
    have hjlen : i + 1 + j < saved.length := by
      have := hjlt
      rw [List.length_drop] at this
      omega
    have hja' : saved[i + 1 + j] = a := by
      rw [← hja]
      simp [List.getElem_drop]
    have hne := dates_ne_of_nodup hnd hlt hjlen (by omega)
    rw [hja', hdate] at hne
    simp [Ne.symm hne]
  have hpt : ({ entry with timestamp := now } : JournalEntry).date == entry.date := by
    simp
  have h2 : (saveEntry saved entry now true).filter (fun e => e.date == entry.date) =
      [{ entry with timestamp := now }] := by
    rw [h1, hset, List.filter_append, htake]
    simp [List.filter_cons, hdrop]
  refine ⟨h1, h2, ?_, ?_⟩
  · rw [List.countP_eq_length_filter, h2]
    rfl
  · intro j hj
    rw [h1, List.getElem?_set_ne (fun h => hj h.symm)]

/-- C3 witness: overwriting the sole `2024-01-01` entry with new content. -/
theorem saveEntry_confirmed_overwrite_witness :
    (([mkEntry "2024-01-01" "t1" "old" [] ⟨1, 0, 0, 0⟩].map
        (fun e => e.date)).Nodup) ∧
    ([mkEntry "2024-01-01" "t1" "old" [] ⟨1, 0, 0, 0⟩].findIdx?
        (fun e => e.date == (mkEntry "2024-01-01" "t0" "new" [] ⟨2, 0, 0, 0⟩).date) =
      some 0) ∧
    (saveEntry [mkEntry "2024-01-01" "t1" "old" [] ⟨1, 0, 0, 0⟩]
        (mkEntry "2024-01-01" "t0" "new" [] ⟨2, 0, 0, 0⟩) "t2" true).filter
        (fun e => e.date == (mkEntry "2024-01-01" "t0" "new" [] ⟨2, 0, 0, 0⟩).date) =
      [{ mkEntry "2024-01-01" "t0" "new" [] ⟨2, 0, 0, 0⟩ with timestamp := "t2" }] := by
  refine ⟨by decide, by decide, ?_⟩
  exact (saveEntry_confirmed_overwrite _ _ "t2" 0 (by decide) (by decide)).2.1

/-- `mergeSort` sorts, given transitivity and totality of the relation on a
property that holds for all list elements (proved by transporting core's
`sorted_mergeSort` along the subtype of that property). -/
theorem mergeSort_pairwise_of_forall {α : Type} {le : α → α → Bool} {P : α → Prop}
    (l : List α) (hl : ∀ x ∈ l, P x)
    (htrans : ∀ a b c, P a → P b → P c → le a b = true → le b c = true → le a c = true)
    (htotal : ∀ a b, P a → P b → le a b = true ∨ le b a = true) :
    (l.mergeSort le).Pairwise (fun a b => le a b = true) := by
  let le' : {x // P x} → {x // P x} → Bool := fun a b => le a.1 b.1
  let l' : List {x // P x} := l.attach.map (fun x => ⟨x.1, hl x.1 x.2⟩)
  have hmap : l'.map Subtype.val = l := by
    simp only [l', List.map_map]
    exact (List.attach_map_val l id).trans (List.map_id l)
  have hs : (l'.mergeSort le').Pairwise (fun a b => le' a b) :=
    List.sorted_mergeSort
      (fun a b c hab hbc => htrans a.1 b.1 c.1 a.2 b.2 c.2 hab hbc)
      (fun a b => by
        rcases htotal a.1 b.1 a.2 b.2 with h | h
        · simp [le', h]
        · simp [le', h])
      l'
  have hcomm : (l'.mergeSort le').map Subtype.val =
      (l'.map Subtype.val).mergeSort le :=
    List.map_mergeSort (fun a _ b _ => rfl)
  rw [hmap] at hcomm
  rw [← hcomm]
  exact hs.map Subtype.val (fun a b h => h)

/-- On entries with valid dates, `entryLe` is transitive. -/
theorem entryLe_trans (a b c : JournalEntry)
    (ha : (dateVal a.date).isSome) (hb : (dateVal b.date).isSome)
    (hc : (dateVal c.date).isSome)
    (hab : entryLe a b = true) (hbc : entryLe b c = true) : entryLe a c = true := by
  rcases Option.isSome_iff_exists.mp ha with ⟨x, hx⟩
  rcases Option.isSome_iff_exists.mp hb with ⟨y, hy⟩
  rcases Option.isSome_iff_exists.mp hc with ⟨z, hz⟩
  unfold entryLe at *
  rw [hx, hy] at hab
  rw [hy, hz] at hbc
  rw [hx, hz]
  simp only [decide_eq_true_eq] at *
  omega

/-- On entries with valid dates, `entryLe` is total. -/
theorem entryLe_total (a b : JournalEntry)
    (ha : (dateVal a.date).isSome) (hb : (dateVal b.date).isSome) :
    entryLe a b = true ∨ entryLe b a = true := by
  rcases Option.isSome_iff_exists.mp ha with ⟨x, hx⟩
  rcases Option.isSome_iff_exists.mp hb with ⟨y, hy⟩
  unfold entryLe
  rw [hx, hy]
  simp only [decide_eq_true_eq]
  omega

/-- A nodup list whose elements are all equal has at most one element. -/
theorem length_le_one_of_nodup_const {α : Type} {l : List α} {d : α}
    (hnd : l.Nodup) (hall : ∀ x ∈ l, x = d) : l.length ≤ 1 := by
  match l with
  | [] => simp
  | [a] => simp
  | a :: b :: t =>
    exfalso
    have ha := hall a (by simp)
    have hb := hall b (by simp)
    rw [List.nodup_cons] at hnd
    exact hnd.1 (by simp [ha, hb])

/-- Under distinct dates, the store holds at most one entry per date. -/
theorem filter_date_length_le_one (saved : List JournalEntry) (d : String)
    (hnd : (saved.map (fun e => e.date)).Nodup) :
    (saved.filter (fun e => e.date == d)).length ≤ 1 := by
  have hsub : ((saved.filter (fun e => e.date == d)).map (fun e => e.date)).Nodup :=
    List.Nodup.sublist ((List.filter_sublist saved).map _) hnd
  have hlen : ((saved.filter (fun e => e.date == d)).map (fun e => e.date)).length =
      (saved.filter (fun e => e.date == d)).length := List.length_map _ _
  rw [← hlen]
  apply length_le_one_of_nodup_const hsub
  intro x hx
  rcases List.mem_map.mp hx with ⟨e, he, hed⟩
  have := (List.mem_filter.mp he).2
  rw [← hed]
  simpa using this

/-- C1: importing a payload merges exactly the payload entries whose date
is not yet in the store.  For every date already present, the stored entry
for that date is unchanged; every payload entry with a fresh date appears
in the result; the result is in ascending date order; and the reported
counts are the number of fresh-date payload entries (imported) and the rest
of the payload (skipped), summing to the payload size. -/
theorem importMerge_spec (saved payload : List JournalEntry)
    (hnd : (saved.map (fun e => e.date)).Nodup)
    (hvalid : ∀ e ∈ saved ++ payload, (dateVal e.date).isSome) :
    (∀ d, d ∈ saved.map (fun e => e.date) →
      (importMerge saved payload).store.filter (fun e => e.date == d) =
        saved.filter (fun e => e.date == d)) ∧
    (∀ e ∈ payload, e.date ∉ saved.map (fun x => x.date) →
      e ∈ (importMerge saved payload).store) ∧
    (importMerge saved payload).store.Pairwise (fun a b => entryLe a b = true) ∧
    (importMerge saved payload).imported =
      (payload.filter
        (fun e => !((saved.map (fun x => x.date)).contains e.date))).length ∧
    (importMerge saved payload).imported + (importMerge saved payload).skipped =
      payload.length ∧
    (importMerge saved payload).skipped =
      payload.countP (fun e => (saved.map (fun x => x.date)).contains e.date) := by
  have hstore : (importMerge saved payload).store =
      (saved ++ payload.filter
        (fun e => !((saved.map (fun x => x.date)).contains e.date))).mergeSort entryLe := rfl
  have himp : (importMerge saved payload).imported =
      (payload.filter
        (fun e => !((saved.map (fun x => x.date)).contains e.date))).length := rfl
  have hskip : (importMerge saved payload).skipped =
      payload.length - (payload.filter
        (fun e => !((saved.map (fun x => x.date)).contains e.date))).length := rfl
  have hperm : List.Perm (importMerge saved payload).store
      (saved ++ payload.filter
        (fun e => !((saved.map (fun x => x.date)).contains e.date))) := by
    rw [hstore]
    exact List.mergeSort_perm _ _
  have hnewmem : ∀ e ∈ payload.filter
      (fun e => !((saved.map (fun x => x.date)).contains e.date)),
      e ∈ payload ∧ e.date ∉ saved.map (fun x => x.date) := by
    intro e he
    rcases List.mem_filter.mp he with ⟨hmem, hq⟩
    refine ⟨hmem, ?_⟩
    simpa using hq
  refine ⟨?_, ?_, ?_, himp, ?_, ?_⟩
  · intro d hd
    have hpf := hperm.filter (fun e => e.date == d)
    rw [List.filter_append] at hpf
    have hnil : (payload.filter
        (fun e => !((saved.map (fun x => x.date)).contains e.date))).filter
        (fun e => e.date == d) = [] := by
      rw [List.filter_eq_nil_iff]
      intro a ha hpa
      have hnot := (hnewmem a ha).2
      have had : a.date = d := by simpa using hpa
      exact hnot (had ▸ hd)
    rw [hnil, List.append_nil] at hpf
    have hle := filter_date_length_le_one saved d hnd
    rcases hsf : saved.filter (fun e => e.date == d) with _ | ⟨a, rest⟩
    · rw [hsf] at hpf
      rw [hsf]
      exact hpf.eq_nil
    · rcases rest with _ | ⟨b, t⟩
      · rw [hsf] at hpf
        rw [hsf]
        exact List.perm_singleton.mp hpf
      · rw [hsf] at hle
        simp at hle
  · intro e he hnotin
    have hq : (!((saved.map (fun x => x.date)).contains e.date)) = true := by
      simpa using hnotin
    have : e ∈ saved ++ payload.filter
        (fun x => !((saved.map (fun y => y.date)).contains x.date)) :=
      List.mem_append_right _ (List.mem_filter.mpr ⟨he, hq⟩)
    rw [hstore]
    exact List.mem_mergeSort.mpr this
  · rw [hstore]
    apply mergeSort_pairwise_of_forall _ (P := fun e => (dateVal e.date).isSome)
    · intro x hx
      rcases List.mem_append.mp hx with h | h
      · exact hvalid x (List.mem_append_left _ h)
      · exact hvalid x (List.mem_append_right _ (hnewmem x h).1)
    · exact entryLe_trans
    · exact entryLe_total
  · rw [himp, hskip]
    have := List.length_filter_le
      (fun e => !((saved.map (fun x => x.date)).contains e.date)) payload
    omega
  · rw [hskip]
    have hcount := List.length_eq_countP_add_countP
      (p := fun e => (saved.map (fun x => x.date)).contains e.date) payload
    have hfc : (payload.filter
        (fun e => !((saved.map (fun x => x.date)).contains e.date))).length =
        payload.countP (fun e => !((saved.map (fun x => x.date)).contains e.date)) :=
      (List.countP_eq_length_filter _ _).symm
    have hsame : payload.countP
        (fun e => !((saved.map (fun x => x.date)).contains e.date)) =
        payload.countP
          (fun e => ¬((saved.map (fun x => x.date)).contains e.date)) := by
      apply List.countP_congr
      intro x _
      simp
    rw [hfc, hsame]
    omega

/-- C1 witness: store holding `2024-01-02`, payload holding a colliding
`2024-01-02` (different content) and a fresh `2024-01-01`. -/
theorem importMerge_spec_witness :
    (([mkEntry "2024-01-02" "t1" "keep" [] ⟨1, 0, 0, 0⟩].map
        (fun e => e.date)).Nodup) ∧
    (importMerge [mkEntry "2024-01-02" "t1" "keep" [] ⟨1, 0, 0, 0⟩]
        [mkEntry "2024-01-02" "t2" "clobber" [] ⟨2, 0, 0, 0⟩,
         mkEntry "2024-01-01" "t3" "fresh" [] ⟨3, 0, 0, 0⟩]).store.filter
        (fun e => e.date == "2024-01-02") =
      [mkEntry "2024-01-02" "t1" "keep" [] ⟨1, 0, 0, 0⟩] ∧
    (importMerge [mkEntry "2024-01-02" "t1" "keep" [] ⟨1, 0, 0, 0⟩]
        [mkEntry "2024-01-02" "t2" "clobber" [] ⟨2, 0, 0, 0⟩,
         mkEntry "2024-01-01" "t3" "fresh" [] ⟨3, 0, 0, 0⟩]).imported +
      (importMerge [mkEntry "2024-01-02" "t1" "keep" [] ⟨1, 0, 0, 0⟩]
        [mkEntry "2024-01-02" "t2" "clobber" [] ⟨2, 0, 0, 0⟩,
         mkEntry "2024-01-01" "t3" "fresh" [] ⟨3, 0, 0, 0⟩]).skipped = 2 := by
  have h := importMerge_spec [mkEntry "2024-01-02" "t1" "keep" [] ⟨1, 0, 0, 0⟩]
    [mkEntry "2024-01-02" "t2" "clobber" [] ⟨2, 0, 0, 0⟩,
     mkEntry "2024-01-01" "t3" "fresh" [] ⟨3, 0, 0, 0⟩]
    (by decide)
    (by decide)
  refine ⟨by decide, ?_, ?_⟩
  · have := h.1 "2024-01-02" (by decide)
    rw [this]
    decide
  · exact h.2.2.2.2.1

/-- C6: exporting a store and importing the resulting document into an
empty store reproduces exactly the original entries — the result is a
permutation (it is re-sorted by date) of the exported collection, every
payload entry counts as imported, and none is skipped.  The metadata
fields (`exportDate`, `totalEntries`) play no role in the merge. -/
theorem export_import_roundTrip (saved : List JournalEntry) (now : String)
    (hnd : (saved.map (fun e => e.date)).Nodup) :
    List.Perm (importMerge [] (exportData saved now).entries).store saved ∧
    (importMerge [] (exportData saved now).entries).imported = saved.length ∧
    (importMerge [] (exportData saved now).entries).skipped = 0 := by
  have hent : (exportData saved now).entries = saved := rfl
  have hfilt : saved.filter (fun e => !(([] : List String).contains e.date)) =
      saved := by
    rw [List.filter_eq_self]
    intro a _
    rfl
  have hstore : (importMerge [] (exportData saved now).entries).store =
      saved.mergeSort entryLe := by
    simp only [importMerge, hent, List.map_nil, hfilt, List.nil_append]
  refine ⟨?_, ?_, ?_⟩
  · rw [hstore]
    exact List.mergeSort_perm _ _
  · simp only [importMerge, hent, List.map_nil, hfilt]
  · simp only [importMerge, hent, List.map_nil, hfilt, Nat.sub_self]

/-- C6 witness: a two-entry store round-trips through export/import. -/
theorem export_import_roundTrip_witness :
    (([mkEntry "2024-01-02" "t1" "a" [] ⟨1, 0, 0, 0⟩,
        mkEntry "2024-01-01" "t2" "b" [] ⟨2, 0, 0, 0⟩].map
        (fun e => e.date)).Nodup) ∧
    List.Perm
      (importMerge []
        (exportData [mkEntry "2024-01-02" "t1" "a" [] ⟨1, 0, 0, 0⟩,
          mkEntry "2024-01-01" "t2" "b" [] ⟨2, 0, 0, 0⟩] "2024-06-01").entries).store
      [mkEntry "2024-01-02" "t1" "a" [] ⟨1, 0, 0, 0⟩,
        mkEntry "2024-01-01" "t2" "b" [] ⟨2, 0, 0, 0⟩] :=
  ⟨by decide,
    (export_import_roundTrip _ "2024-06-01" (by decide)).1⟩

/-- C10: import deduplicates only against the pre-import store.  When the
payload itself carries two or more entries of the same date `D` and the
store has none, every one of them passes the filter and lands in the
merged store, which then holds multiple entries dated `D`. -/
theorem import_payload_internal_duplicates (saved payload : List JournalEntry)
    (D : String) (hD : D ∉ saved.map (fun e => e.date))
    (h2 : 2 ≤ payload.countP (fun e => e.date == D)) :
    (∀ e ∈ payload, e.date = D → e ∈ (importMerge saved payload).store) ∧
    2 ≤ (importMerge saved payload).store.countP (fun e => e.date == D) := by
  have hq : ∀ e ∈ payload, e.date = D →
      (!((saved.map (fun x => x.date)).contains e.date)) = true := by
    intro e _ hed
    subst hed
    simpa using hD
  have hperm : List.Perm (importMerge saved payload).store
      (saved ++ payload.filter
        (fun e => !((saved.map (fun x => x.date)).contains e.date))) :=
    List.mergeSort_perm _ _
  constructor
  · intro e he hed
    have : e ∈ saved ++ payload.filter
        (fun x => !((saved.map (fun y => y.date)).contains x.date)) :=
      List.mem_append_right _ (List.mem_filter.mpr ⟨he, hq e he hed⟩)
    exact List.mem_mergeSort.mpr this
  · rw [hperm.countP_eq]
    rw [List.countP_append]
    have hcf : (payload.filter
        (fun e => !((saved.map (fun x => x.date)).contains e.date))).countP
        (fun e => e.date == D) = payload.countP
        (fun e => e.date == D &&
          !((saved.map (fun x => x.date)).contains e.date)) := by
      rw [List.countP_filter]
    have hsame : payload.countP
        (fun e => e.date == D &&
          !((saved.map (fun x => x.date)).contains e.date)) =
        payload.countP (fun e => e.date == D) := by
      apply List.countP_congr
      intro x hx
      constructor
      · intro h
        simp only [Bool.and_eq_true] at h
        exact h.1
      · intro h
        have hxd : x.date = D := by simpa using h
        simp only [Bool.and_eq_true]
        exact ⟨h, hq x hx hxd⟩
    omega

/-- C10 witness: empty store, payload with two `2024-03-03` entries. -/
theorem import_payload_internal_duplicates_witness :
    ("2024-03-03" ∉ ([] : List JournalEntry).map (fun e => e.date)) ∧
    2 ≤ ([mkEntry "2024-03-03" "t1" "a" [] ⟨1, 0, 0, 0⟩,
          mkEntry "2024-03-03" "t2" "b" [] ⟨2, 0, 0, 0⟩].countP
          (fun e => e.date == "2024-03-03")) ∧
    2 ≤ (importMerge []
          [mkEntry "2024-03-03" "t1" "a" [] ⟨1, 0, 0, 0⟩,
           mkEntry "2024-03-03" "t2" "b" [] ⟨2, 0, 0, 0⟩]).store.countP
          (fun e => e.date == "2024-03-03") :=
  ⟨by decide, by decide,
    (import_payload_internal_duplicates []
      [mkEntry "2024-03-03" "t1" "a" [] ⟨1, 0, 0, 0⟩,
       mkEntry "2024-03-03" "t2" "b" [] ⟨2, 0, 0, 0⟩] "2024-03-03"
      (by decide) (by decide)).2⟩

/-- C5: any import whose file text is not valid JSON (`input = none`) or
whose parsed top level does not hold an array-valued `entries` field is
rejected on the FormatError path before any merge: the store comes back
unchanged and no counts are reported (zero entries added). -/
theorem import_rejects_bad_shape (saved : List JournalEntry)
    (input : Option Json) (decodeEntry : Json → JournalEntry)
    (h : input = none ∨ ∃ j, input = some j ∧ jsonEntries j = none) :
    importData saved input decodeEntry = (saved, none) := by
  rcases h with h | ⟨j, hj, hje⟩
  · rw [h]
    rfl
  · rw [hj]
    simp only [importData, hje]

/-- C5 witness: the spec's scenario, a file parsing to the object with a
single field `foo = 1`, rejected with the store (one entry) unchanged. -/
theorem import_rejects_bad_shape_witness :
    (jsonEntries (Json.obj [("foo", Json.num 1)]) = none) ∧
    importData [mkEntry "2024-01-01" "t1" "a" [] ⟨1, 0, 0, 0⟩]
      (some (Json.obj [("foo", Json.num 1)])) (fun _ => mkEntry "" "" "" [] ⟨0, 0, 0, 0⟩) =
      ([mkEntry "2024-01-01" "t1" "a" [] ⟨1, 0, 0, 0⟩], none) :=
  ⟨rfl,
    import_rejects_bad_shape _ _ _ (Or.inr ⟨_, rfl, rfl⟩)⟩

/-- C4: the load effect fails soft only when storage is absent.  Against
the claim (and the repository's own architecture notes, which promise
try/catch around localStorage operations), unparseable stored text makes
the bare `JSON.parse` raise out of the effect, and successfully parsed
text of any shape — here the number 1 — is installed as the store rather
than being replaced by the empty store. -/
theorem load_unparseable_raises :
    load LoadInput.unparseable = LoadResult.raised ∧
    LoadResult.raised ≠ LoadResult.keepEmpty ∧
    load (LoadInput.parsed (Json.num 1)) = LoadResult.store (Json.num 1) ∧
    LoadResult.store (Json.num 1) ≠ LoadResult.keepEmpty ∧
    load LoadInput.absent = LoadResult.keepEmpty := by
  refine ⟨rfl, ?_, rfl, ?_, rfl⟩
  · intro h
    exact LoadResult.noConfusion h
  · intro h
    exact LoadResult.noConfusion h

/-- C7: task statistics.  The two rates are `round(100 * part / whole)`
with a guard returning 0 whenever the denominator is 0 (the embedding is
total, so no NaN/undefined can arise), and the spec's scenario — a single
completed high-priority todo — yields all-100 statistics. -/
theorem taskStats_spec (entry : JournalEntry) :
    (getProductivityStats entry).total = entry.todos.length ∧
    (getProductivityStats entry).completed =
      (entry.todos.filter (fun t => t.completed)).length ∧
    ((getProductivityStats entry).total = 0 →
      (getProductivityStats entry).completionRate = 0) ∧
    ((getProductivityStats entry).highPriority = 0 →
      (getProductivityStats entry).highPriorityRate = 0) ∧
    (0 < (getProductivityStats entry).total →
      (getProductivityStats entry).completionRate =
        mathRound (100 * ((getProductivityStats entry).completed : ℚ) /
          ((getProductivityStats entry).total : ℚ))) ∧
    (0 < (getProductivityStats entry).highPriority →
      (getProductivityStats entry).highPriorityRate =
        mathRound (100 * ((getProductivityStats entry).completedHigh : ℚ) /
          ((getProductivityStats entry).highPriority : ℚ))) ∧
    (entry.todos = [⟨"A", true, Priority.high⟩] →
      getProductivityStats entry = ⟨1, 1, 100, 1, 1, 100⟩) := by
  have hrate : (getProductivityStats entry).completionRate =
      (if 0 < entry.todos.length then
        mathRound ((((entry.todos.filter (fun t => t.completed)).length : ℚ) /
          (entry.todos.length : ℚ)) * 100) else 0) := rfl
  have hhigh : (getProductivityStats entry).highPriorityRate =
      (if 0 < (entry.todos.filter (fun t => t.priority == Priority.high)).length then
        mathRound ((((entry.todos.filter
            (fun t => t.priority == Priority.high && t.completed)).length : ℚ) /
          ((entry.todos.filter (fun t => t.priority == Priority.high)).length : ℚ)) * 100)
      else 0) := rfl
  refine ⟨rfl, rfl, ?_, ?_, ?_, ?_, ?_⟩
  · intro h
    have h0 : entry.todos.length = 0 := h
    rw [hrate, if_neg (by omega)]
  · intro h
    have h0 : (entry.todos.filter (fun t => t.priority == Priority.high)).length = 0 := h
    rw [hhigh, if_neg (by omega)]
  · intro h
    have h0 : 0 < entry.todos.length := h
    have hc : (getProductivityStats entry).completed =
        (entry.todos.filter (fun t => t.completed)).length := rfl
    have ht : (getProductivityStats entry).total = entry.todos.length := rfl
    rw [hrate, if_pos h0, hc, ht]
    congr 1
    ring
  · intro h
    have h0 : 0 < (entry.todos.filter (fun t => t.priority == Priority.high)).length := h
    have hch : (getProductivityStats entry).completedHigh =
        (entry.todos.filter (fun t => t.priority == Priority.high && t.completed)).length :=
      rfl
    have hhp : (getProductivityStats entry).highPriority =
        (entry.todos.filter (fun t => t.priority == Priority.high)).length := rfl
    rw [hhigh, if_pos h0, hch, hhp]
    congr 1
    ring
  · intro h
    simp only [getProductivityStats, h]
    norm_num [mathRound, List.filter]

/-- C7 witness: the scenario entry with one completed high-priority todo. -/
theorem taskStats_spec_witness :
    ((mkEntry "2024-01-01" "t" "" [⟨"A", true, Priority.high⟩] ⟨0, 0, 0, 5⟩).todos =
      [⟨"A", true, Priority.high⟩]) ∧
    getProductivityStats (mkEntry "2024-01-01" "t" "" [⟨"A", true, Priority.high⟩]
      ⟨0, 0, 0, 5⟩) = ⟨1, 1, 100, 1, 1, 100⟩ :=
  ⟨rfl,
    (taskStats_spec (mkEntry "2024-01-01" "t" "" [⟨"A", true, Priority.high⟩]
      ⟨0, 0, 0, 5⟩)).2.2.2.2.2.2 rfl⟩

/-- Folding `+ f e` over a list sums the mapped values. -/
theorem foldl_add_eq_sum_map {α : Type} (f : α → ℚ) (l : List α) :
    l.foldl (fun s e => s + f e) 0 = (l.map f).sum := by
  rw [List.sum_eq_foldl, List.foldl_map]

/-- C8: rating averages.  An entry joins the averaging population exactly
when at least one of its four ratings is non-zero; the call yields the
"no data" marker (`none`) precisely when every entry (saved plus working)
has all four ratings at zero; and otherwise each dimension average is
the sum of that dimension over the whole population — zero-rated
dimensions included in the denominator — divided by the population size
and rounded to one decimal place. -/
theorem ratingAverages_spec (savedEntries : List JournalEntry)
    (entry : JournalEntry) :
    (ratingAverages savedEntries entry = none ↔
      ∀ e ∈ savedEntries ++ [entry], e.ratings.overall = 0 ∧ e.ratings.energy = 0 ∧
        e.ratings.productivity = 0 ∧ e.ratings.mood = 0) ∧
    (∀ e, e ∈ (savedEntries ++ [entry]).filter ratingPositive ↔
      (e ∈ savedEntries ++ [entry] ∧ (e.ratings.overall ≠ 0 ∨ e.ratings.energy ≠ 0 ∨
        e.ratings.productivity ≠ 0 ∨ e.ratings.mood ≠ 0))) ∧
    (∀ pop, pop = (savedEntries ++ [entry]).filter ratingPositive → pop ≠ [] →
      ratingAverages savedEntries entry = some
        { avgOverall :=
            toFixed1 ((pop.map (fun e => (e.ratings.overall : ℚ))).sum / (pop.length : ℚ))
          avgEnergy :=
            toFixed1 ((pop.map (fun e => (e.ratings.energy : ℚ))).sum / (pop.length : ℚ))
          avgProductivity :=
            toFixed1 ((pop.map (fun e => (e.ratings.productivity : ℚ))).sum /
              (pop.length : ℚ))
          avgMood :=
            toFixed1 ((pop.map (fun e => (e.ratings.mood : ℚ))).sum / (pop.length : ℚ)) }) := by
  have hposiff : ∀ e : JournalEntry, ratingPositive e = true ↔
      (e.ratings.overall ≠ 0 ∨ e.ratings.energy ≠ 0 ∨
        e.ratings.productivity ≠ 0 ∨ e.ratings.mood ≠ 0) := by
    intro e
    simp only [ratingPositive, Bool.or_eq_true, decide_eq_true_eq, Nat.pos_iff_ne_zero]
    tauto
  have hna : ratingAverages savedEntries entry =
      (if ((savedEntries ++ [entry]).filter ratingPositive).length = 0 then none
       else some
        { avgOverall :=
            toFixed1 ((((savedEntries ++ [entry]).filter ratingPositive).foldl
              (fun sum e => sum + (e.ratings.overall : ℚ)) 0) /
              ((((savedEntries ++ [entry]).filter ratingPositive).length : ℚ)))
          avgEnergy :=
            toFixed1 ((((savedEntries ++ [entry]).filter ratingPositive).foldl
              (fun sum e => sum + (e.ratings.energy : ℚ)) 0) /
              ((((savedEntries ++ [entry]).filter ratingPositive).length : ℚ)))
          avgProductivity :=
            toFixed1 ((((savedEntries ++ [entry]).filter ratingPositive).foldl
              (fun sum e => sum + (e.ratings.productivity : ℚ)) 0) /
              ((((savedEntries ++ [entry]).filter ratingPositive).length : ℚ)))
          avgMood :=
            toFixed1 ((((savedEntries ++ [entry]).filter ratingPositive).foldl
              (fun sum e => sum + (e.ratings.mood : ℚ)) 0) /
              ((((savedEntries ++ [entry]).filter ratingPositive).length : ℚ))) }) := rfl
  refine ⟨?_, ?_, ?_⟩
  · constructor
    · intro h e he
      by_cases hnil : ((savedEntries ++ [entry]).filter ratingPositive).length = 0
      · have hfe : (savedEntries ++ [entry]).filter ratingPositive = [] :=
          List.length_eq_zero.mp hnil
        rw [List.filter_eq_nil_iff] at hfe
        have hnp := hfe e he
        rw [hposiff e] at hnp
        push_neg at hnp
        exact hnp
      · exfalso
        rw [hna, if_neg hnil] at h
        exact Option.some_ne_none _ h
    · intro h
      have hfe : (savedEntries ++ [entry]).filter ratingPositive = [] := by
        rw [List.filter_eq_nil_iff]
        intro e he
        rw [hposiff e]
        push_neg
        exact h e he
      rw [hna, if_pos (by rw [hfe]; rfl)]
  · intro e
    rw [List.mem_filter, hposiff e]
  · intro pop hpop hne
    have hlen : ((savedEntries ++ [entry]).filter ratingPositive).length ≠ 0 := by
      rw [← hpop]
      intro h0
      exact hne (List.length_eq_zero.mp h0)
    rw [hna, if_neg hlen, ← hpop]
    simp only [foldl_add_eq_sum_map]

/-- C8 witness: one saved-entry-free call on a working entry rated
overall 5, mood 4 (energy and productivity unrated). -/
theorem ratingAverages_spec_witness :
    ([mkEntry "2024-01-01" "t" "" [] ⟨5, 0, 0, 4⟩] =
      (([] : List JournalEntry) ++ [mkEntry "2024-01-01" "t" "" [] ⟨5, 0, 0, 4⟩]).filter
        ratingPositive) ∧
    ratingAverages [] (mkEntry "2024-01-01" "t" "" [] ⟨5, 0, 0, 4⟩) = some
      { avgOverall :=
          toFixed1 ((([mkEntry "2024-01-01" "t" "" [] ⟨5, 0, 0, 4⟩].map
            (fun e => (e.ratings.overall : ℚ))).sum) /
            (([mkEntry "2024-01-01" "t" "" [] ⟨5, 0, 0, 4⟩].length : ℚ)))
        avgEnergy :=
          toFixed1 ((([mkEntry "2024-01-01" "t" "" [] ⟨5, 0, 0, 4⟩].map
            (fun e => (e.ratings.energy : ℚ))).sum) /
            (([mkEntry "2024-01-01" "t" "" [] ⟨5, 0, 0, 4⟩].length : ℚ)))
        avgProductivity :=
          toFixed1 ((([mkEntry "2024-01-01" "t" "" [] ⟨5, 0, 0, 4⟩].map
            (fun e => (e.ratings.productivity : ℚ))).sum) /
            (([mkEntry "2024-01-01" "t" "" [] ⟨5, 0, 0, 4⟩].length : ℚ)))
        avgMood :=
          toFixed1 ((([mkEntry "2024-01-01" "t" "" [] ⟨5, 0, 0, 4⟩].map
            (fun e => (e.ratings.mood : ℚ))).sum) /
            (([mkEntry "2024-01-01" "t" "" [] ⟨5, 0, 0, 4⟩].length : ℚ))) } :=
  ⟨by decide,
    (ratingAverages_spec [] (mkEntry "2024-01-01" "t" "" [] ⟨5, 0, 0, 4⟩)).2.2
      [mkEntry "2024-01-01" "t" "" [] ⟨5, 0, 0, 4⟩] (by decide) (by decide)⟩

/-- C9: insights emit a message for each firing threshold over the
trailing 7-entry window — average mood at least 4 (positive), at most 2
(self-care), aggregate completion rate at least 80 (praise), at most 50
(decompose tasks), average productivity at least 4 (momentum), total
saved-entry count at least 7 (streak) — and exactly the one default
encouragement when no threshold fires (including the empty store). -/
theorem insights_spec (saved : List JournalEntry) :
    (recentWindow saved ≠ [] → 4 ≤ windowAvgMood (recentWindow saved) →
      msgMoodHigh ∈ insights saved) ∧
    (recentWindow saved ≠ [] → windowAvgMood (recentWindow saved) ≤ 2 →
      msgMoodLow ∈ insights saved) ∧
    (recentWindow saved ≠ [] → 80 ≤ windowCompletionRate (recentWindow saved) →
      msgRateHigh ∈ insights saved) ∧
    (recentWindow saved ≠ [] → windowCompletionRate (recentWindow saved) ≤ 50 →
      msgRateLow ∈ insights saved) ∧
    (recentWindow saved ≠ [] → 4 ≤ windowAvgProductivity (recentWindow saved) →
      msgProductivity ∈ insights saved) ∧
    (7 ≤ saved.length → msgStreak saved.length ∈ insights saved) ∧
    ((recentWindow saved = [] ∨
      (¬ 4 ≤ windowAvgMood (recentWindow saved) ∧
        ¬ windowAvgMood (recentWindow saved) ≤ 2 ∧
        ¬ 80 ≤ windowCompletionRate (recentWindow saved) ∧
        ¬ windowCompletionRate (recentWindow saved) ≤ 50 ∧
        ¬ 4 ≤ windowAvgProductivity (recentWindow saved) ∧
        saved.length < 7)) →
      insights saved = [msgDefault]) := by
  have hins : insights saved =
      (if (if (recentWindow saved).length > 0 then
          (if windowAvgMood (recentWindow saved) ≥ 4 then [msgMoodHigh]
           else if windowAvgMood (recentWindow saved) ≤ 2 then [msgMoodLow] else []) ++
          (if windowCompletionRate (recentWindow saved) ≥ 80 then [msgRateHigh]
           else if windowCompletionRate (recentWindow saved) ≤ 50 then [msgRateLow]
           else []) ++
          (if windowAvgProductivity (recentWindow saved) ≥ 4 then [msgProductivity]
           else []) ++
          (if saved.length ≥ 7 then [msgStreak saved.length] else [])
        else []).length = 0 then [msgDefault]
       else
        (if (recentWindow saved).length > 0 then
          (if windowAvgMood (recentWindow saved) ≥ 4 then [msgMoodHigh]
           else if windowAvgMood (recentWindow saved) ≤ 2 then [msgMoodLow] else []) ++
          (if windowCompletionRate (recentWindow saved) ≥ 80 then [msgRateHigh]
           else if windowCompletionRate (recentWindow saved) ≤ 50 then [msgRateLow]
           else []) ++
          (if windowAvgProductivity (recentWindow saved) ≥ 4 then [msgProductivity]
           else []) ++
          (if saved.length ≥ 7 then [msgStreak saved.length] else [])
        else [])) := rfl
  have hmem : ∀ m : String,
      m ∈ (if (recentWindow saved).length > 0 then
          (if windowAvgMood (recentWindow saved) ≥ 4 then [msgMoodHigh]
           else if windowAvgMood (recentWindow saved) ≤ 2 then [msgMoodLow] else []) ++
          (if windowCompletionRate (recentWindow saved) ≥ 80 then [msgRateHigh]
           else if windowCompletionRate (recentWindow saved) ≤ 50 then [msgRateLow]
           else []) ++
          (if windowAvgProductivity (recentWindow saved) ≥ 4 then [msgProductivity]
           else []) ++
          (if saved.length ≥ 7 then [msgStreak saved.length] else [])
        else []) → m ∈ insights saved := by
    intro m hm
    rw [hins]
    have hne : ¬(if (recentWindow saved).length > 0 then
          (if windowAvgMood (recentWindow saved) ≥ 4 then [msgMoodHigh]
           else if windowAvgMood (recentWindow saved) ≤ 2 then [msgMoodLow] else []) ++
          (if windowCompletionRate (recentWindow saved) ≥ 80 then [msgRateHigh]
           else if windowCompletionRate (recentWindow saved) ≤ 50 then [msgRateLow]
           else []) ++
          (if windowAvgProductivity (recentWindow saved) ≥ 4 then [msgProductivity]
           else []) ++
          (if saved.length ≥ 7 then [msgStreak saved.length] else [])
        else []).length = 0 := by
      intro h0
      rw [List.length_eq_zero] at h0
      rw [h0] at hm
      exact List.not_mem_nil m hm
    rw [if_neg hne]
    exact hm
  have hlenpos : recentWindow saved ≠ [] → (recentWindow saved).length > 0 :=
    fun h => List.length_pos.mpr h
  refine ⟨?_, ?_, ?_, ?_, ?_, ?_, ?_⟩
  · intro hne hm
    apply hmem
    rw [if_pos (hlenpos hne), if_pos hm]
    simp
  · intro hne hm
    have hnot : ¬ windowAvgMood (recentWindow saved) ≥ 4 := by linarith
    apply hmem
    rw [if_pos (hlenpos hne), if_neg hnot, if_pos hm]
    simp
  · intro hne hm
    apply hmem
    rw [if_pos (hlenpos hne)]
    have : msgRateHigh ∈
        (if windowCompletionRate (recentWindow saved) ≥ 80 then [msgRateHigh]
         else if windowCompletionRate (recentWindow saved) ≤ 50 then [msgRateLow]
         else []) := by
      rw [if_pos hm]
      simp
    simp only [List.mem_append]
    tauto
  · intro hne hm
    have hnot : ¬ windowCompletionRate (recentWindow saved) ≥ 80 := by linarith
    apply hmem
    rw [if_pos (hlenpos hne)]
    have : msgRateLow ∈
        (if windowCompletionRate (recentWindow saved) ≥ 80 then [msgRateHigh]
         else if windowCompletionRate (recentWindow saved) ≤ 50 then [msgRateLow]
         else []) := by
      rw [if_neg hnot, if_pos hm]
      simp
    simp only [List.mem_append]
    tauto
  · intro hne hm
    apply hmem
    rw [if_pos (hlenpos hne)]
    have : msgProductivity ∈
        (if windowAvgProductivity (recentWindow saved) ≥ 4 then [msgProductivity]
         else []) := by
      rw [if_pos hm]
      simp
    simp only [List.mem_append]
    tauto
  · intro hm
    have hne : recentWindow saved ≠ [] := by
      intro h0
      have hlen : (recentWindow saved).length = saved.length - (saved.length - 7) := by
        simp [recentWindow]
      rw [h0] at hlen
      simp at hlen
      omega
    apply hmem
    rw [if_pos (hlenpos hne)]
    have : msgStreak saved.length ∈
        (if saved.length ≥ 7 then [msgStreak saved.length] else []) := by
      rw [if_pos hm]
      simp
    simp only [List.mem_append]
    tauto
  · intro h
    rcases h with h | ⟨h1, h2, h3, h4, h5, h6⟩
    · rw [hins]
      have hl0 : ¬ (recentWindow saved).length > 0 := by
        rw [h]
        simp
      rw [if_neg hl0]
      rfl
    · rw [hins]
      have h7 : ¬ saved.length ≥ 7 := by omega
      by_cases hw : (recentWindow saved).length > 0
      · rw [if_pos hw, if_neg h1, if_neg h2, if_neg h3, if_neg h4, if_neg h5, if_neg h7]
        rfl
      · rw [if_neg hw]
        rfl

/-- C9 witness: a one-entry store (mood 3, productivity 1, three todos of
which two are completed) fires no threshold, so the single default
encouragement is emitted. -/
theorem insights_spec_witness :
    insights [mkEntry "2024-05-05" "t" ""
      [⟨"a", true, Priority.medium⟩, ⟨"b", true, Priority.medium⟩,
       ⟨"c", false, Priority.medium⟩] ⟨0, 0, 1, 3⟩] = [msgDefault] := by
  apply (insights_spec [mkEntry "2024-05-05" "t" ""
    [⟨"a", true, Priority.medium⟩, ⟨"b", true, Priority.medium⟩,
     ⟨"c", false, Priority.medium⟩] ⟨0, 0, 1, 3⟩]).2.2.2.2.2.2
  apply Or.inr
  refine ⟨?_, ?_, ?_, ?_, ?_, by simp⟩
  all_goals
    norm_num [recentWindow, windowAvgMood, windowAvgProductivity, windowCompletionRate,
      mkEntry, List.foldl, List.filter]

end Journal
